import Mathlib

/-!
Shallow embedding of the `overcurrent` circuit-breaker library.

The canonical implementation (per the design notes) is the richer variant
with a hard-open state: the `circuitBreaker` struct with `Trip`, `Reset`,
`ShouldTry`, `MarkResult` and `Call`.  Time instants and durations are
modelled as integers (nanoseconds); the random draw of `rand.Float64()`
(a value in `[0,1)`) and the wall clock reading `clock.Now()` are passed
as explicit parameters to the operations that consume them.  The pluggable
trip-condition and backoff strategies are modelled as state machines whose
internal state is threaded through the breaker state; the metric collector
is modelled as a trace of emitted events.
-/

namespace Overcurrent

/-- The four circuit states of the canonical implementation. -/
inductive CircuitState
  | StateOpen
  | StateClosed
  | StateHalfClosed
  | StateHardOpen
  deriving DecidableEq, Repr

/-- Go errors, with the two sentinel values distinguished by identity. -/
inductive Err
  | invocationTimeout
  | circuitOpen
  | generic (n : Nat)
  deriving DecidableEq, Repr

/-- Metric-collector event categories (`EventType` constants of the source). -/
inductive EventType
  | EventTypeShortCircuit
  | EventTypeRunDuration
  | EventTypeTimeout
  | EventTypeError
  | EventTypeBadRequest
  deriving DecidableEq, Repr

/-- Observable interactions of the breaker with its collaborators:
collector events and invocations of the pluggable strategies and of the
random source.  `ShouldTry` in the hard-open state must produce none. -/
inductive Ev
  | stateChange (s : CircuitState)
  | tripQuery
  | tcSuccess
  | tcFailure
  | backoffReset
  | backoffNext
  | draw
  | count (c : EventType)
  | duration
  deriving DecidableEq, Repr

/-- The `TripCondition` interface: a state machine over an internal state
type `σ` with `Success`, `Failure` and `ShouldTrip`. -/
structure TripCondition (σ : Type) where
  success : σ → σ
  failure : σ → σ
  shouldTrip : σ → Bool

/-- The `backoff.Backoff` interface: `NextInterval` yields a duration and
advances the internal schedule, `Reset` returns it to its starting point. -/
structure Backoff (β : Type) where
  reset : β → β
  nextInterval : β → Int × β

/-- A backoff generator honours the interface contract for base interval
`base` when, immediately after a `Reset`, `NextInterval` yields `base`. -/
def BackoffResetsToBase {β : Type} (bk : Backoff β) (base : Int) : Prop :=
  ∀ b : β, (bk.nextInterval (bk.reset b)).1 = base

/-- The immutable configuration of a `circuitBreaker` (strategy references
and timing parameters fixed at construction time). -/
structure BreakerConfig (σ β : Type) where
  invocationTimeout : Int
  halfClosedRetryProbability : ℚ
  resetBackoff : Backoff β
  failureInterpreter : Err → Bool
  tripCondition : TripCondition σ

/-- The mutable fields of a `circuitBreaker`, including the internal states
of the trip-condition (`tc`) and backoff (`bo`) strategy instances. -/
structure BreakerState (σ β : Type) where
  state : CircuitState
  lastFailureTime : Option Int
  resetTimeout : Option Int
  tc : σ
  bo : β
  deriving DecidableEq, Repr

/-- `newCircuitBreaker` leaves the breaker in `StateClosed` with no failure
bookkeeping; `tc0` and `bo0` are the initial strategy states. -/
def initialState {σ β : Type} (tc0 : σ) (bo0 : β) : BreakerState σ β :=
  { state := CircuitState.StateClosed
    lastFailureTime := none
    resetTimeout := none
    tc := tc0
    bo := bo0 }

/-- `circuitBreaker.setState`: write the state and report it to the
collector only when it actually changes. -/
def setState {σ β : Type} (s : CircuitState) (st : BreakerState σ β) :
    BreakerState σ β × List Ev :=
  if st.state = s then (st, []) else ({ st with state := s }, [Ev.stateChange s])

/-- `circuitBreaker.Trip`: force the hard-open state. -/
def Trip {σ β : Type} (st : BreakerState σ β) : BreakerState σ β × List Ev :=
  setState CircuitState.StateHardOpen st

/-- `circuitBreaker.Reset`: force `StateClosed`, clear `resetTimeout`,
reset the backoff generator and feed a synthetic success to the trip
condition.  (`lastFailureTime` is not touched.) -/
def Reset {σ β : Type} (cfg : BreakerConfig σ β) (st : BreakerState σ β) :
    BreakerState σ β × List Ev :=
  let p := setState CircuitState.StateClosed st
  ({ p.1 with
      resetTimeout := none
      bo := cfg.resetBackoff.reset p.1.bo
      tc := cfg.tripCondition.success p.1.tc },
   p.2 ++ [Ev.backoffReset, Ev.tcSuccess])

/-- `circuitBreaker.resetTimeoutElapsed`: true only in `StateOpen` with
both `lastFailureTime` and `resetTimeout` set and the elapsed wall-clock
time at least the reset timeout. -/
def resetTimeoutElapsed {σ β : Type} (now : Int) (st : BreakerState σ β) : Bool :=
  if st.state ≠ CircuitState.StateOpen then false
  else
    match st.lastFailureTime, st.resetTimeout with
    | some t, some d => decide (now - t ≥ d)
    | _, _ => false

/-- `circuitBreaker.ShouldTry`, with the wall clock reading `now` and the
value `r` of the (single, lazily consumed) `rand.Float64()` draw passed
explicitly.  Returns the decision, the updated breaker state and the trace
of collaborator interactions. -/
def ShouldTry {σ β : Type} (cfg : BreakerConfig σ β) (now : Int) (r : ℚ)
    (st : BreakerState σ β) : Bool × BreakerState σ β × List Ev :=
  if st.state = CircuitState.StateHardOpen then (false, st, [])
  else if cfg.tripCondition.shouldTrip st.tc = false then
    let p := setState CircuitState.StateClosed st
    (true, p.1, Ev.tripQuery :: p.2)
  else
    let st1 :=
      if st.state = CircuitState.StateClosed then
        { st with bo := cfg.resetBackoff.reset st.bo }
      else st
    let e1 : List Ev :=
      if st.state = CircuitState.StateClosed then [Ev.backoffReset] else []
    let p2 :=
      if st1.state ≠ CircuitState.StateOpen then
        let q := cfg.resetBackoff.nextInterval st1.bo
        (({ st1 with resetTimeout := some q.1, bo := q.2 } : BreakerState σ β),
         [Ev.backoffNext])
      else (st1, ([] : List Ev))
    if resetTimeoutElapsed now p2.1 then
      let p3 := setState CircuitState.StateHalfClosed p2.1
      (decide (r < cfg.halfClosedRetryProbability), p3.1,
       Ev.tripQuery :: (e1 ++ p2.2 ++ p3.2 ++ [Ev.draw]))
    else
      let p3 := setState CircuitState.StateOpen p2.1
      (false, p3.1, Ev.tripQuery :: (e1 ++ p2.2 ++ p3.2))

/-- `circuitBreaker.MarkResult`: a non-nil error that is the timeout
sentinel or trip-worthy per the failure interpreter records a failure and
returns false; every other outcome performs a full `Reset` and returns
true. -/
def MarkResult {σ β : Type} (cfg : BreakerConfig σ β) (now : Int)
    (err : Option Err) (st : BreakerState σ β) :
    Bool × BreakerState σ β × List Ev :=
  match err with
  | some e =>
    if e = Err.invocationTimeout || cfg.failureInterpreter e then
      (false,
       { st with
          lastFailureTime := some now
          tc := cfg.tripCondition.failure st.tc },
       [Ev.tcFailure])
    else
      let p := Reset cfg st
      (true, p.1, p.2)
  | none =>
    let p := Reset cfg st
    (true, p.1, p.2)

/-- `circuitBreaker.Call`.  The result of `callWithTimeout` (the error
returned by the protected function, or the timeout sentinel) is supplied
as `outcome`; the
concurrency of the timeout race itself is outside the embedding.  Returns
the error handed to the caller, the updated state and the event trace. -/
def Call {σ β : Type} (cfg : BreakerConfig σ β) (now : Int) (r : ℚ)
    (outcome : Option Err) (st : BreakerState σ β) :
    Option Err × BreakerState σ β × List Ev :=
  let p := ShouldTry cfg now r st
  if p.1 then
    let q := MarkResult cfg now outcome p.2.1
    let tail : List Ev :=
      if q.1 = false then
        if outcome = some Err.invocationTimeout then
          [Ev.count EventType.EventTypeTimeout]
        else [Ev.count EventType.EventTypeError]
      else if outcome ≠ none then [Ev.count EventType.EventTypeBadRequest]
      else []
    (outcome, q.2.1, p.2.2 ++ [Ev.duration] ++ q.2.2 ++ tail)
  else
    (some Err.circuitOpen, p.2.1, p.2.2 ++ [Ev.count EventType.EventTypeShortCircuit])

/-- One public operation of the breaker, with the clock readings, random
draws and protected-call outcomes it consumes given as data. -/
inductive Op
  | trip
  | reset
  | shouldTry (now : Int) (r : ℚ)
  | markResult (now : Int) (err : Option Err)
  | call (now : Int) (r : ℚ) (outcome : Option Err)

/-- Apply one public operation to the breaker state, discarding the
returned value and the event trace. -/
def applyOp {σ β : Type} (cfg : BreakerConfig σ β) (st : BreakerState σ β) :
    Op → BreakerState σ β
  | Op.trip => (Trip st).1
  | Op.reset => (Reset cfg st).1
  | Op.shouldTry now r => (ShouldTry cfg now r st).2.1
  | Op.markResult now e => (MarkResult cfg now e st).2.1
  | Op.call now r e => (Call cfg now r e st).2.1

/-- Run a sequence of public operations. -/
def runOps {σ β : Type} (cfg : BreakerConfig σ β) (st : BreakerState σ β) :
    List Op → BreakerState σ β
  | [] => st
  | op :: ops => runOps cfg (applyOp cfg st op) ops

/-- An operation is reset-free when executing it never reaches the
`Reset` routine: it is not `Reset` itself and not a `MarkResult` whose
outcome is treated as a success.  (`Call` only resets after an admitted
attempt, which cannot happen while hard-open.) -/
def resetFree {σ β : Type} (cfg : BreakerConfig σ β) : Op → Bool
  | Op.reset => false
  | Op.markResult _ none => false
  | Op.markResult _ (some e) => e = Err.invocationTimeout || cfg.failureInterpreter e
  | _ => true

/-- Modelled from the spec: the default trip condition
`NewConsecutiveFailureTripCondition(n)` (its source file is not part of
the provided sources) keeps a plain counter of consecutive failures,
cleared to zero on success, incremented on failure, and trips once the
counter reaches the threshold `n`. -/
def NewConsecutiveFailureTripCondition (n : Nat) : TripCondition Nat :=
  { success := fun _ => 0
    failure := fun c => c + 1
    shouldTrip := fun c => decide (n ≤ c) }

/-- Modelled from the spec: the default failure interpreter
`NewAnyErrorFailureInterpreter` (its source file is not part of the
provided sources) classifies every non-nil error as trip-worthy. -/
def NewAnyErrorFailureInterpreter : Err → Bool := fun _ => true

/-- Modelled from the spec: `backoff.NewConstantBackoff(d)` of the
external backoff library always yields the interval `d`. -/
def NewConstantBackoff (d : Int) : Backoff Unit :=
  { reset := fun _ => ()
    nextInterval := fun _ => (d, ()) }

/-- A trip condition that always wants the breaker tripped (used as a
concrete instantiation in counterexamples). -/
def alwaysTripCondition : TripCondition Unit :=
  { success := fun _ => ()
    failure := fun _ => ()
    shouldTrip := fun _ => true }

/-- The default configuration of `newCircuitBreaker`: 100ms invocation
timeout, half-closed retry probability 1/2, constant 1000ms backoff,
any-error failure interpreter, 5-consecutive-failure trip condition. -/
def defaultConfig : BreakerConfig Nat Unit :=
  { invocationTimeout := 100
    halfClosedRetryProbability := 1/2
    resetBackoff := NewConstantBackoff 1000
    failureInterpreter := NewAnyErrorFailureInterpreter
    tripCondition := NewConsecutiveFailureTripCondition 5 }

/-- A failure interpreter that ignores every error, and a breaker
configuration using it (used to witness the timeout-sentinel override). -/
def cfgIgnoreAll : BreakerConfig Nat Unit :=
  { defaultConfig with failureInterpreter := fun _ => false }

/-- Concrete always-trip configuration used in counterexamples: retry
probability 1, constant backoff of 5. -/
def cfgAlways : BreakerConfig Unit Unit :=
  { invocationTimeout := 0
    halfClosedRetryProbability := 1
    resetBackoff := NewConstantBackoff 5
    failureInterpreter := fun _ => true
    tripCondition := alwaysTripCondition }

/-- A breaker state sitting in `StateClosed` with failure bookkeeping from
ten time units ago and a computed reset timeout of five. -/
def stFreshTrip : BreakerState Unit Unit :=
  { state := CircuitState.StateClosed
    lastFailureTime := some 0
    resetTimeout := some 5
    tc := ()
    bo := () }

/-- A breaker state in `StateClosed` with a stale recorded failure. -/
def stStale : BreakerState Unit Unit :=
  { state := CircuitState.StateClosed
    lastFailureTime := some 7
    resetTimeout := some 5
    tc := ()
    bo := () }

/-- A hard-open breaker state. -/
def stHard : BreakerState Unit Unit :=
  { state := CircuitState.StateHardOpen
    lastFailureTime := none
    resetTimeout := none
    tc := ()
    bo := () }

/-- Five recorded failures followed by a `ShouldTry`, driving the default
breaker into the open state with a computed reset timeout. -/
def opsFailFive : List Op :=
  [Op.markResult 0 (some Err.invocationTimeout),
   Op.markResult 0 (some Err.invocationTimeout),
   Op.markResult 0 (some Err.invocationTimeout),
   Op.markResult 0 (some Err.invocationTimeout),
   Op.markResult 0 (some Err.invocationTimeout),
   Op.shouldTry 1 0]

section Lemmas

variable {σ β : Type}

theorem setState_fst_fields (s : CircuitState) (st : BreakerState σ β) :
    (setState s st).1.state = s ∧
    (setState s st).1.lastFailureTime = st.lastFailureTime ∧
    (setState s st).1.resetTimeout = st.resetTimeout ∧
    (setState s st).1.tc = st.tc ∧
    (setState s st).1.bo = st.bo := by
  unfold setState
  by_cases h : st.state = s <;> simp [h]

theorem Reset_fst (cfg : BreakerConfig σ β) (st : BreakerState σ β) :
    (Reset cfg st).1 =
      { state := CircuitState.StateClosed
        lastFailureTime := st.lastFailureTime
        resetTimeout := none
        tc := cfg.tripCondition.success st.tc
        bo := cfg.resetBackoff.reset st.bo } := by
  obtain ⟨s, lft, rt, tc, bo⟩ := st
  unfold Reset setState
  by_cases h : s = CircuitState.StateClosed <;> simp_all

theorem shouldTry_hardOpen (cfg : BreakerConfig σ β) (now : Int) (r : ℚ)
    (st : BreakerState σ β) (h : st.state = CircuitState.StateHardOpen) :
    ShouldTry cfg now r st = (false, st, ([] : List Ev)) := by
  unfold ShouldTry
  simp [h]

theorem markResult_failure (cfg : BreakerConfig σ β) (now : Int) (e : Err)
    (st : BreakerState σ β)
    (h : (decide (e = Err.invocationTimeout) || cfg.failureInterpreter e) = true) :
    MarkResult cfg now (some e) st =
      (false,
       { st with
          lastFailureTime := some now
          tc := cfg.tripCondition.failure st.tc },
       [Ev.tcFailure]) := by
  unfold MarkResult
  simp only [decide_eq_true_eq] at h ⊢
  rw [if_pos]
  · exact h

theorem markResult_ignored (cfg : BreakerConfig σ β) (now : Int) (e : Err)
    (st : BreakerState σ β) (hne : e ≠ Err.invocationTimeout)
    (hfi : cfg.failureInterpreter e = false) :
    MarkResult cfg now (some e) st = (true, (Reset cfg st).1, (Reset cfg st).2) := by
  simp [MarkResult, hne, hfi]

theorem markResult_nil (cfg : BreakerConfig σ β) (now : Int)
    (st : BreakerState σ β) :
    MarkResult cfg now none st = (true, (Reset cfg st).1, (Reset cfg st).2) := by
  unfold MarkResult
  rfl

theorem shouldTry_open_elapsed (cfg : BreakerConfig σ β) (now : Int) (r : ℚ)
    (st : BreakerState σ β) (t d : Int)
    (hs : st.state = CircuitState.StateOpen)
    (htc : cfg.tripCondition.shouldTrip st.tc = true)
    (hl : st.lastFailureTime = some t) (hr : st.resetTimeout = some d)
    (he : d ≤ now - t) :
    ShouldTry cfg now r st =
      (decide (r < cfg.halfClosedRetryProbability),
       { st with state := CircuitState.StateHalfClosed },
       [Ev.tripQuery, Ev.stateChange CircuitState.StateHalfClosed, Ev.draw]) := by
  unfold ShouldTry resetTimeoutElapsed setState
  simp [hs, htc, hl, hr, he]

theorem Trip_fst_state (st : BreakerState σ β) :
    (Trip st).1.state = CircuitState.StateHardOpen := by
  unfold Trip setState
  by_cases h : st.state = CircuitState.StateHardOpen <;> simp [h]

theorem applyOp_hardOpen (cfg : BreakerConfig σ β) (st : BreakerState σ β)
    (op : Op) (h : st.state = CircuitState.StateHardOpen)
    (hop : resetFree cfg op = true) :
    (applyOp cfg st op).state = CircuitState.StateHardOpen := by
  cases op with
  | trip => simpa [applyOp] using Trip_fst_state st
  | reset => simp [resetFree] at hop
  | shouldTry now r => simp [applyOp, shouldTry_hardOpen cfg now r st h, h]
  | markResult now e =>
    cases e with
    | none => simp [resetFree] at hop
    | some e =>
      have hb : (decide (e = Err.invocationTimeout) || cfg.failureInterpreter e) = true := by
        simpa [resetFree] using hop
      simp [applyOp, markResult_failure cfg now e st hb, h]
  | call now r e =>
    simp [applyOp, Call, shouldTry_hardOpen cfg now r st h, h]

theorem runOps_hardOpen (cfg : BreakerConfig σ β) (st : BreakerState σ β)
    (ops : List Op) (h : st.state = CircuitState.StateHardOpen)
    (hops : ∀ op ∈ ops, resetFree cfg op = true) :
    (runOps cfg st ops).state = CircuitState.StateHardOpen := by
  induction ops generalizing st with
  | nil => simpa [runOps] using h
  | cons op ops ih =>
    have h1 := applyOp_hardOpen cfg st op h (hops op (by simp))
    exact ih (applyOp cfg st op) h1 (fun o ho => hops o (by simp [ho]))

end Lemmas

/-- C1: after `Trip()`, `ShouldTry()` returns false on every subsequent
call — for any trip condition, backoff state, wall-clock reading and random
draw — as long as no intervening operation invokes the `Reset` routine
(neither a direct `Reset` nor a `MarkResult` whose outcome is treated as a
success; a `Call` while hard-open is short-circuited and never resets). -/
theorem C1_trip_blocks_until_reset {σ β : Type} (cfg : BreakerConfig σ β)
    (st : BreakerState σ β) (ops : List Op) (now : Int) (r : ℚ)
    (hops : ∀ op ∈ ops, resetFree cfg op = true) :
    (ShouldTry cfg now r (runOps cfg (applyOp cfg st Op.trip) ops)).1 = false := by
  have h0 : (applyOp cfg st Op.trip).state = CircuitState.StateHardOpen := by
    simpa [applyOp] using Trip_fst_state st
  have h1 := runOps_hardOpen cfg (applyOp cfg st Op.trip) ops h0 hops
  rw [shouldTry_hardOpen cfg now r _ h1]

/-- Witness for C1: a freshly tripped default breaker, followed by a
`ShouldTry`, a failure-recording `MarkResult` and a `Call`, still denies
the next attempt. -/
theorem C1_trip_blocks_until_reset_witness :
    (∀ op ∈ [Op.shouldTry 2 0, Op.markResult 3 (some Err.invocationTimeout),
             Op.call 4 0 (some (Err.generic 0))],
       resetFree defaultConfig op = true) ∧
    (ShouldTry defaultConfig 5 0
      (runOps defaultConfig
        (applyOp defaultConfig (initialState 0 ()) Op.trip)
        [Op.shouldTry 2 0, Op.markResult 3 (some Err.invocationTimeout),
         Op.call 4 0 (some (Err.generic 0))])).1 = false :=
  ⟨by decide,
   C1_trip_blocks_until_reset defaultConfig (initialState 0 ())
     [Op.shouldTry 2 0, Op.markResult 3 (some Err.invocationTimeout),
      Op.call 4 0 (some (Err.generic 0))] 5 0 (by decide)⟩

/-- C10: when the state is `StateHardOpen`, `ShouldTry` returns false,
leaves every field of the breaker unchanged and performs no collaborator
interaction at all (no trip-condition query, no backoff call, no random
draw, no collector event). -/
theorem C10_hardOpen_frame {σ β : Type} (cfg : BreakerConfig σ β)
    (now : Int) (r : ℚ) (st : BreakerState σ β)
    (h : st.state = CircuitState.StateHardOpen) :
    ShouldTry cfg now r st = (false, st, ([] : List Ev)) :=
  shouldTry_hardOpen cfg now r st h

/-- Witness for C10 at a concrete hard-open state. -/
theorem C10_hardOpen_frame_witness :
    stHard.state = CircuitState.StateHardOpen ∧
    ShouldTry cfgAlways 42 0 stHard = (false, stHard, ([] : List Ev)) :=
  ⟨rfl, C10_hardOpen_frame cfgAlways 42 0 stHard rfl⟩

/-- C2 fails on the code: a `ShouldTry` call in which the trip condition
says to trip, `lastFailureTime` and `resetTimeout` are set and the elapsed
time (100) far exceeds the reset timeout (5), with retry probability 1 and
draw 0, still returns false and moves to `StateOpen` — because the breaker
was not already in `StateOpen`, `resetTimeoutElapsed` ignores the elapsed
time entirely. -/
theorem C2_first_call_counterexample :
    cfgAlways.tripCondition.shouldTrip stFreshTrip.tc = true ∧
    stFreshTrip.lastFailureTime = some 0 ∧
    stFreshTrip.resetTimeout = some 5 ∧
    (5 : Int) ≤ 100 - 0 ∧
    (0 : ℚ) < cfgAlways.halfClosedRetryProbability ∧
    (ShouldTry cfgAlways 100 0 stFreshTrip).1 = false ∧
    (ShouldTry cfgAlways 100 0 stFreshTrip).2.1.state = CircuitState.StateOpen := by
  refine ⟨rfl, rfl, rfl, by decide, by decide, ?_, ?_⟩ <;> decide

/-- C2 amended: the half-open transition additionally requires the breaker
to already be in `StateOpen` when `ShouldTry` begins (so it can happen at
the second `ShouldTry` of a failure episode at the earliest, never at the
first one).  Under that extra premise, when the trip condition says to trip
and the elapsed time since `lastFailureTime` is at least `resetTimeout`,
the breaker moves to `StateHalfClosed` and allows the attempt exactly when
the random draw is below `halfClosedRetryProbability`. -/
theorem C2_halfOpen_transition {σ β : Type} (cfg : BreakerConfig σ β)
    (now : Int) (r : ℚ) (st : BreakerState σ β) (t d : Int)
    (hs : st.state = CircuitState.StateOpen)
    (htc : cfg.tripCondition.shouldTrip st.tc = true)
    (hl : st.lastFailureTime = some t) (hr : st.resetTimeout = some d)
    (he : d ≤ now - t) :
    (ShouldTry cfg now r st).1 = decide (r < cfg.halfClosedRetryProbability) ∧
    (ShouldTry cfg now r st).2.1.state = CircuitState.StateHalfClosed := by
  rw [shouldTry_open_elapsed cfg now r st t d hs htc hl hr he]
  exact ⟨rfl, rfl⟩

/-- Witness for C2 amended: from a concrete open state with an elapsed
reset timeout, the probe is admitted (probability 1, draw 0). -/
theorem C2_halfOpen_transition_witness :
    (ShouldTry cfgAlways 100 0
      { state := CircuitState.StateOpen, lastFailureTime := some 0,
        resetTimeout := some 5, tc := (), bo := () }).1 = true ∧
    (ShouldTry cfgAlways 100 0
      { state := CircuitState.StateOpen, lastFailureTime := some 0,
        resetTimeout := some 5, tc := (), bo := () }).2.1.state =
      CircuitState.StateHalfClosed := by
  have h := C2_halfOpen_transition cfgAlways 100 0
    { state := CircuitState.StateOpen, lastFailureTime := some 0,
      resetTimeout := some 5, tc := (), bo := () } 0 5
    rfl rfl rfl rfl (by decide)
  exact ⟨h.1.trans (by decide), h.2⟩

/-- C3 fails on the code: from a state whose `lastFailureTime` is set,
`MarkResult nil` returns true and clears `resetTimeout`, but
`lastFailureTime` is still set afterwards — the full reset of the
canonical implementation never touches `lastFailureTime`. -/
theorem C3_lastFailureTime_counterexample :
    stStale.lastFailureTime = some 7 ∧
    (MarkResult cfgAlways 10 none stStale).1 = true ∧
    (MarkResult cfgAlways 10 none stStale).2.1.resetTimeout = none ∧
    (MarkResult cfgAlways 10 none stStale).2.1.lastFailureTime = some 7 ∧
    ¬ (MarkResult cfgAlways 10 none stStale).2.1.lastFailureTime = none := by
  refine ⟨rfl, ?_, ?_, ?_, ?_⟩ <;> decide

/-- C3 amended: in every breaker state, `MarkResult nil` returns true and
performs the full reset — state forced to `StateClosed`, `resetTimeout`
cleared, backoff returned to its starting point, trip condition told a
success — but `lastFailureTime` is left unchanged (it is not cleared). -/
theorem C3_markResult_nil {σ β : Type} (cfg : BreakerConfig σ β)
    (now : Int) (st : BreakerState σ β) :
    (MarkResult cfg now none st).1 = true ∧
    (MarkResult cfg now none st).2.1.state = CircuitState.StateClosed ∧
    (MarkResult cfg now none st).2.1.resetTimeout = none ∧
    (MarkResult cfg now none st).2.1.bo = cfg.resetBackoff.reset st.bo ∧
    (MarkResult cfg now none st).2.1.tc = cfg.tripCondition.success st.tc ∧
    (MarkResult cfg now none st).2.1.lastFailureTime = st.lastFailureTime := by
  rw [markResult_nil cfg now st]
  rw [Reset_fst cfg st]
  exact ⟨rfl, rfl, rfl, rfl, rfl, rfl⟩

/-- C5: for every non-nil error, `MarkResult` returns false exactly when
the error is the invocation-timeout sentinel or the failure interpreter
classifies it as trip-worthy, and in that case it records the failure:
`lastFailureTime` becomes the current clock reading and the trip condition
is notified of a failure.  In particular the timeout sentinel is a failure
even under an interpreter that ignores every error. -/
theorem C5_markResult_classification {σ β : Type} (cfg : BreakerConfig σ β)
    (now : Int) (st : BreakerState σ β) (e : Err) :
    ((MarkResult cfg now (some e) st).1 = false ↔
      (e = Err.invocationTimeout ∨ cfg.failureInterpreter e = true)) ∧
    ((e = Err.invocationTimeout ∨ cfg.failureInterpreter e = true) →
      (MarkResult cfg now (some e) st).2.1.lastFailureTime = some now ∧
      (MarkResult cfg now (some e) st).2.1.tc =
        cfg.tripCondition.failure st.tc) := by
  by_cases h : e = Err.invocationTimeout ∨ cfg.failureInterpreter e = true
  · have hb : (decide (e = Err.invocationTimeout) || cfg.failureInterpreter e) = true := by
      rcases h with h | h <;> simp [h]
    rw [markResult_failure cfg now e st hb]
    exact ⟨by simp [h], fun _ => ⟨rfl, rfl⟩⟩
  · push_neg at h
    obtain ⟨hne, hfi⟩ := h
    rw [markResult_ignored cfg now e st hne (by simpa using hfi)]
    constructor
    · simp [hne, hfi]
    · intro hc
      rcases hc with hc | hc
      · exact absurd hc hne
      · exact absurd hc hfi

/-- Witness for C5: with an interpreter that ignores every error, the
timeout sentinel still yields false and records the failure time. -/
theorem C5_markResult_classification_witness :
    (MarkResult cfgIgnoreAll 4 (some Err.invocationTimeout) (initialState 0 ())).1 = false ∧
    (MarkResult cfgIgnoreAll 4 (some Err.invocationTimeout) (initialState 0 ())).2.1.lastFailureTime = some 4 :=
  have h := C5_markResult_classification cfgIgnoreAll 4 (initialState 0 ()) Err.invocationTimeout
  ⟨h.1.mpr (Or.inl rfl), (h.2 (Or.inl rfl)).1⟩

/-- C9: a trip-worthy (or timeout-sentinel) outcome leaves the `state`
field, `resetTimeout` and the backoff state untouched inside `MarkResult`;
it only stamps `lastFailureTime` and advances the trip condition, so any
transition to `StateOpen` can only happen at a later `ShouldTry`. -/
theorem C9_markResult_failure_frame {σ β : Type} (cfg : BreakerConfig σ β)
    (now : Int) (st : BreakerState σ β) (e : Err)
    (h : e = Err.invocationTimeout ∨ cfg.failureInterpreter e = true) :
    (MarkResult cfg now (some e) st).2.1.state = st.state ∧
    (MarkResult cfg now (some e) st).2.1.resetTimeout = st.resetTimeout ∧
    (MarkResult cfg now (some e) st).2.1.bo = st.bo ∧
    (MarkResult cfg now (some e) st).2.1.lastFailureTime = some now ∧
    (MarkResult cfg now (some e) st).2.1.tc = cfg.tripCondition.failure st.tc := by
  have hb : (decide (e = Err.invocationTimeout) || cfg.failureInterpreter e) = true := by
    rcases h with h | h <;> simp [h]
  rw [markResult_failure cfg now e st hb]
  exact ⟨rfl, rfl, rfl, rfl, rfl⟩

/-- Witness for C9 at a concrete closed state and a generic trip-worthy
error: the state stays `StateClosed` inside `MarkResult`. -/
theorem C9_markResult_failure_frame_witness :
    (MarkResult cfgAlways 9 (some (Err.generic 2)) stFreshTrip).2.1.state =
      CircuitState.StateClosed ∧
    (MarkResult cfgAlways 9 (some (Err.generic 2)) stFreshTrip).2.1.resetTimeout = some 5 ∧
    (MarkResult cfgAlways 9 (some (Err.generic 2)) stFreshTrip).2.1.lastFailureTime = some 9 :=
  have h := C9_markResult_failure_frame cfgAlways 9 stFreshTrip (Err.generic 2) (Or.inr rfl)
  ⟨h.1, h.2.1, h.2.2.2.1⟩

/-- C6: a non-nil error that is not the timeout sentinel and that the
failure interpreter classifies as not trip-worthy makes `MarkResult`
perform the full reset — state `StateClosed`, `resetTimeout` cleared,
backoff returned to base, trip condition told a success — and return true;
and whenever the admission check passes, `Call` hands the protected
call outcome (in particular such an error) back to the caller unchanged. -/
theorem C6_ignored_error_resets {σ β : Type} (cfg : BreakerConfig σ β)
    (now : Int) (st : BreakerState σ β) (e : Err)
    (hne : e ≠ Err.invocationTimeout)
    (hfi : cfg.failureInterpreter e = false) :
    (MarkResult cfg now (some e) st).1 = true ∧
    (MarkResult cfg now (some e) st).2.1.state = CircuitState.StateClosed ∧
    (MarkResult cfg now (some e) st).2.1.resetTimeout = none ∧
    (MarkResult cfg now (some e) st).2.1.bo = cfg.resetBackoff.reset st.bo ∧
    (MarkResult cfg now (some e) st).2.1.tc = cfg.tripCondition.success st.tc ∧
    (∀ (r : ℚ) (st₀ : BreakerState σ β),
      (ShouldTry cfg now r st₀).1 = true →
      (Call cfg now r (some e) st₀).1 = some e) := by
  rw [markResult_ignored cfg now e st hne hfi, Reset_fst cfg st]
  refine ⟨rfl, rfl, rfl, rfl, rfl, ?_⟩
  intro r st₀ hok
  unfold Call
  simp [hok]

/-- Witness for C6: an ignorable error on the default breaker with an
ignore-everything interpreter is marked a success and returned unchanged
by `Call`. -/
theorem C6_ignored_error_resets_witness :
    (MarkResult cfgIgnoreAll 0 (some (Err.generic 1)) (initialState 0 ())).1 = true ∧
    (Call cfgIgnoreAll 0 0 (some (Err.generic 1)) (initialState 0 ())).1 =
      some (Err.generic 1) :=
  have h := C6_ignored_error_resets cfgIgnoreAll 0 (initialState 0 ())
    (Err.generic 1) (by decide) rfl
  ⟨h.1, h.2.2.2.2.2 0 (initialState 0 ()) (by decide)⟩

/-- C7: immediately after `Reset` on a breaker whose trip condition is the
consecutive-failure condition (any positive threshold), `ShouldTry`
returns true — the synthetic success cleared the failure counter — and,
for any backoff generator honouring the reset-to-base contract, the
next interval of the generator from the post-reset state is its base
interval. -/
theorem C7_reset_reopens_and_backoff_base {β : Type}
    (cfg : BreakerConfig Nat β) (n : Nat) (base : Int)
    (st : BreakerState Nat β) (now : Int) (r : ℚ)
    (hcfg : cfg.tripCondition = NewConsecutiveFailureTripCondition n)
    (hn : 0 < n)
    (hb : BackoffResetsToBase cfg.resetBackoff base) :
    (ShouldTry cfg now r (Reset cfg st).1).1 = true ∧
    (cfg.resetBackoff.nextInterval ((Reset cfg st).1).bo).1 = base := by
  have hst := Reset_fst cfg st
  have h1 : ((Reset cfg st).1).state = CircuitState.StateClosed := by rw [hst]
  have h2 : cfg.tripCondition.shouldTrip ((Reset cfg st).1).tc = false := by
    rw [hst]
    rw [hcfg]
    simp [NewConsecutiveFailureTripCondition]
    omega
  constructor
  · unfold ShouldTry
    simp [h1, h2]
  · have h3 : ((Reset cfg st).1).bo = cfg.resetBackoff.reset st.bo := by rw [hst]
    rw [h3]
    exact hb st.bo

/-- Witness for C7 on the default configuration (threshold 5, constant
1000 backoff) from an arbitrary concrete state. -/
theorem C7_reset_reopens_and_backoff_base_witness :
    (ShouldTry defaultConfig 3 0 (Reset defaultConfig (initialState 4 ())).1).1 = true ∧
    (defaultConfig.resetBackoff.nextInterval
      ((Reset defaultConfig (initialState 4 ())).1).bo).1 = 1000 :=
  C7_reset_reopens_and_backoff_base defaultConfig 5 1000 (initialState 4 ()) 3 0
    rfl (by decide) (fun _ => rfl)

/-- C8: when the breaker enters `ShouldTry` already open, the trip
condition still wants it tripped and the reset timeout has elapsed (the
half-open branch), a retry probability of 0 suppresses the probe for every
random draw in `[0,1)`, and a retry probability of 1 admits it for every
draw in `[0,1)`. -/
theorem C8_probability_extremes {σ β : Type} (cfg : BreakerConfig σ β)
    (now : Int) (r : ℚ) (st : BreakerState σ β) (t d : Int)
    (hs : st.state = CircuitState.StateOpen)
    (htc : cfg.tripCondition.shouldTrip st.tc = true)
    (hl : st.lastFailureTime = some t) (hr : st.resetTimeout = some d)
    (he : d ≤ now - t) :
    (cfg.halfClosedRetryProbability = 0 → 0 ≤ r →
      (ShouldTry cfg now r st).1 = false) ∧
    (cfg.halfClosedRetryProbability = 1 → r < 1 →
      (ShouldTry cfg now r st).1 = true) := by
  rw [shouldTry_open_elapsed cfg now r st t d hs htc hl hr he]
  constructor
  · intro hp hr0
    simp [hp, not_lt.mpr hr0]
  · intro hp hr1
    simp [hp, hr1]

/-- Witness for C8: with probability 0 a draw of 1/2 is rejected in the
half-open branch. -/
theorem C8_probability_extremes_witness :
    (ShouldTry
      { invocationTimeout := 0, halfClosedRetryProbability := 0,
        resetBackoff := NewConstantBackoff 5,
        failureInterpreter := fun _ => true,
        tripCondition := alwaysTripCondition } 100 (1/2)
      { state := CircuitState.StateOpen, lastFailureTime := some 0,
        resetTimeout := some 5, tc := (), bo := () }).1 = false :=
  (C8_probability_extremes
    { invocationTimeout := 0, halfClosedRetryProbability := 0,
      resetBackoff := NewConstantBackoff 5,
      failureInterpreter := fun _ => true,
      tripCondition := alwaysTripCondition } 100 (1/2)
    { state := CircuitState.StateOpen, lastFailureTime := some 0,
      resetTimeout := some 5, tc := (), bo := () } 0 5
    rfl rfl rfl rfl (by decide)).1 rfl (by norm_num)

/-- The invariant that actually holds of the failure
bookkeeping (with the default consecutive-failure trip condition): a set
`resetTimeout` implies a set `lastFailureTime`, and a positive consecutive
failure counter implies a set `lastFailureTime`. -/
def GoodInv {β : Type} (st : BreakerState Nat β) : Prop :=
  (st.resetTimeout ≠ none → st.lastFailureTime ≠ none) ∧
  (0 < st.tc → st.lastFailureTime ≠ none)

section InvariantLemmas

variable {σ β : Type}

theorem shouldTry_noTrip (cfg : BreakerConfig σ β) (now : Int) (r : ℚ)
    (st : BreakerState σ β) (h1 : st.state ≠ CircuitState.StateHardOpen)
    (h2 : cfg.tripCondition.shouldTrip st.tc = false) :
    ShouldTry cfg now r st =
      (true, (setState CircuitState.StateClosed st).1,
       Ev.tripQuery :: (setState CircuitState.StateClosed st).2) := by
  unfold ShouldTry
  simp [h1, h2]

theorem shouldTry_trip_fields (cfg : BreakerConfig σ β) (now : Int) (r : ℚ)
    (st : BreakerState σ β) (h1 : st.state ≠ CircuitState.StateHardOpen)
    (h2 : cfg.tripCondition.shouldTrip st.tc = true) :
    (ShouldTry cfg now r st).2.1.lastFailureTime = st.lastFailureTime ∧
    (ShouldTry cfg now r st).2.1.tc = st.tc ∧
    ((ShouldTry cfg now r st).2.1.resetTimeout = st.resetTimeout ∨
      ∃ v : Int, (ShouldTry cfg now r st).2.1.resetTimeout = some v) := by
  obtain ⟨s, lft, rt, tc, bo⟩ := st
  cases s with
  | StateHardOpen => exact absurd rfl h1
  | StateClosed =>
    unfold ShouldTry resetTimeoutElapsed setState
    simp_all
  | StateOpen =>
    unfold ShouldTry resetTimeoutElapsed setState
    simp_all
    split_ifs <;> simp_all
  | StateHalfClosed =>
    unfold ShouldTry resetTimeoutElapsed setState
    simp_all

theorem shouldTry_preserves_inv {β : Type} (cfg : BreakerConfig Nat β)
    (n : Nat) (now : Int) (r : ℚ) (st : BreakerState Nat β)
    (hcfg : cfg.tripCondition = NewConsecutiveFailureTripCondition n)
    (hn : 0 < n) (h : GoodInv st) :
    GoodInv (ShouldTry cfg now r st).2.1 := by
  by_cases h1 : st.state = CircuitState.StateHardOpen
  · rw [shouldTry_hardOpen cfg now r st h1]
    exact h
  by_cases h2 : cfg.tripCondition.shouldTrip st.tc = true
  · obtain ⟨he1, he2, he3⟩ := shouldTry_trip_fields cfg now r st h1 h2
    have hlft : st.lastFailureTime ≠ none := by
      apply h.2
      rw [hcfg] at h2
      simp [NewConsecutiveFailureTripCondition] at h2
      omega
    constructor
    · intro _
      rw [he1]
      exact hlft
    · intro _
      rw [he1]
      exact hlft
  · rw [shouldTry_noTrip cfg now r st h1 (by simpa using h2)]
    obtain ⟨_, hf1, hf2, hf3, _⟩ :=
      setState_fst_fields CircuitState.StateClosed st
    exact ⟨fun hx => hf1 ▸ (h.1 (hf2 ▸ hx)), fun hx => hf1 ▸ (h.2 (hf3 ▸ hx))⟩

theorem markResult_preserves_inv {β : Type} (cfg : BreakerConfig Nat β)
    (n : Nat) (now : Int) (e : Option Err) (st : BreakerState Nat β)
    (hcfg : cfg.tripCondition = NewConsecutiveFailureTripCondition n) :
    GoodInv (MarkResult cfg now e st).2.1 := by
  cases e with
  | none =>
    rw [markResult_nil cfg now st, Reset_fst cfg st]
    constructor <;> simp [hcfg, NewConsecutiveFailureTripCondition]
  | some e =>
    by_cases hb : (decide (e = Err.invocationTimeout) || cfg.failureInterpreter e) = true
    · rw [markResult_failure cfg now e st hb]
      exact ⟨fun _ => by simp, fun _ => by simp⟩
    · have hne : e ≠ Err.invocationTimeout := by
        intro hx
        simp [hx] at hb
      have hfi : cfg.failureInterpreter e = false := by
        rcases Bool.eq_false_or_eq_true (cfg.failureInterpreter e) with hx | hx
        · simp [hx] at hb
        · exact hx
      rw [markResult_ignored cfg now e st hne hfi, Reset_fst cfg st]
      constructor <;> simp [hcfg, NewConsecutiveFailureTripCondition]

theorem applyOp_preserves_inv {β : Type} (cfg : BreakerConfig Nat β)
    (n : Nat) (st : BreakerState Nat β) (op : Op)
    (hcfg : cfg.tripCondition = NewConsecutiveFailureTripCondition n)
    (hn : 0 < n) (h : GoodInv st) :
    GoodInv (applyOp cfg st op) := by
  cases op with
  | trip =>
    show GoodInv (Trip st).1
    unfold Trip
    obtain ⟨_, hf1, hf2, hf3, _⟩ :=
      setState_fst_fields CircuitState.StateHardOpen st
    exact ⟨fun hx => hf1 ▸ (h.1 (hf2 ▸ hx)), fun hx => hf1 ▸ (h.2 (hf3 ▸ hx))⟩
  | reset =>
    show GoodInv (Reset cfg st).1
    rw [Reset_fst cfg st]
    constructor <;> simp [hcfg, NewConsecutiveFailureTripCondition]
  | shouldTry now r => exact shouldTry_preserves_inv cfg n now r st hcfg hn h
  | markResult now e => exact markResult_preserves_inv cfg n now e st hcfg
  | call now r e =>
    show GoodInv (Call cfg now r e st).2.1
    have hs := shouldTry_preserves_inv cfg n now r st hcfg hn h
    unfold Call
    by_cases hc : (ShouldTry cfg now r st).1 = true
    · simp only [hc, if_true]
      exact markResult_preserves_inv cfg n now e (ShouldTry cfg now r st).2.1 hcfg
    · simp only [Bool.not_eq_true] at hc
      simp only [hc, Bool.false_eq_true, if_false]
      exact hs

theorem runOps_preserves_inv {β : Type} (cfg : BreakerConfig Nat β)
    (n : Nat) (st : BreakerState Nat β) (ops : List Op)
    (hcfg : cfg.tripCondition = NewConsecutiveFailureTripCondition n)
    (hn : 0 < n) (h : GoodInv st) :
    GoodInv (runOps cfg st ops) := by
  induction ops generalizing st with
  | nil => exact h
  | cons op ops ih =>
    exact ih (applyOp cfg st op) (applyOp_preserves_inv cfg n st op hcfg hn h)

end InvariantLemmas

/-- C4 fails on the code: one public `MarkResult` with a failing outcome,
applied to the freshly constructed default breaker, reaches a state where
`lastFailureTime` is set while `resetTimeout` is still unset — the two
fields are not kept both-set-or-both-unset. -/
theorem C4_counterexample :
    (runOps defaultConfig (initialState 0 ())
      [Op.markResult 3 (some Err.invocationTimeout)]).lastFailureTime = some 3 ∧
    (runOps defaultConfig (initialState 0 ())
      [Op.markResult 3 (some Err.invocationTimeout)]).resetTimeout = none ∧
    ¬ (((runOps defaultConfig (initialState 0 ())
          [Op.markResult 3 (some Err.invocationTimeout)]).lastFailureTime = none ∧
        (runOps defaultConfig (initialState 0 ())
          [Op.markResult 3 (some Err.invocationTimeout)]).resetTimeout = none) ∨
       ((runOps defaultConfig (initialState 0 ())
          [Op.markResult 3 (some Err.invocationTimeout)]).lastFailureTime ≠ none ∧
        (runOps defaultConfig (initialState 0 ())
          [Op.markResult 3 (some Err.invocationTimeout)]).resetTimeout ≠ none)) := by
  refine ⟨?_, ?_, ?_⟩ <;> decide

/-- C4 amended: the one-sided relation holds instead.  In every state
reachable from the freshly constructed breaker (consecutive-failure trip
condition with positive threshold) by any sequence of public operations,
a set `resetTimeout` implies a set `lastFailureTime`; the converse fails,
since recording a failure sets only `lastFailureTime`, and `Reset` clears
only `resetTimeout`. -/
theorem C4_resetTimeout_implies_lastFailure {β : Type}
    (cfg : BreakerConfig Nat β) (n : Nat) (bo0 : β) (ops : List Op)
    (hcfg : cfg.tripCondition = NewConsecutiveFailureTripCondition n)
    (hn : 0 < n) :
    (runOps cfg (initialState 0 bo0) ops).resetTimeout ≠ none →
    (runOps cfg (initialState 0 bo0) ops).lastFailureTime ≠ none := by
  have h0 : GoodInv (initialState 0 bo0 : BreakerState Nat β) := by
    constructor <;> simp [initialState]
  exact (runOps_preserves_inv cfg n (initialState 0 bo0) ops hcfg hn h0).1

/-- Witness for C4 amended: five failures then a `ShouldTry` leave the
default breaker with a computed reset timeout, hence a recorded failure
time. -/
theorem C4_resetTimeout_implies_lastFailure_witness :
    (runOps defaultConfig (initialState 0 ()) opsFailFive).resetTimeout ≠ none ∧
    (runOps defaultConfig (initialState 0 ()) opsFailFive).lastFailureTime ≠ none :=
  ⟨by decide,
   C4_resetTimeout_implies_lastFailure defaultConfig 5 () opsFailFive
     rfl (by decide) (by decide)⟩

end Overcurrent
